import Mathlib

/-!
Verification of the stock-assistant agent core (`src/backend/agent.py`,
`src/backend/tools.py`, `src/backend/stock_fetcher.py`, `src/backend/database.py`)
against its natural-language specification.

The Python code is shallowly embedded: external collaborators (the language
model, the tool executors, the Yahoo endpoint, the audit sink) are oracle
parameters, and every repository function under verification is translated
line by line into an executable Lean definition.
-/

/-! ## Data model: messages and tool-invocation requests (agent.py) -/

/-- A tool-invocation request carried by an assistant message.  In LangChain a
tool call is a dict; `run_financial_agent` reads `tool_call.get("name", "Unknown")`,
so the name is modelled as optional. -/
structure ToolCall where
  name : Option String
  deriving Repr, DecidableEq

/-- A message of the conversation state (`AgentState.messages`).  Messages
without a `tool_calls` attribute (system / human / tool messages) are modelled
with `tool_calls = []`: the Python guard `hasattr(m, "tool_calls") and m.tool_calls`
is exactly `tool_calls ≠ []` under this encoding. -/
structure Message where
  role : String
  content : String
  tool_calls : List ToolCall
  deriving Repr, DecidableEq

/-- `hasattr(m, "tool_calls") and m.tool_calls` — the truthiness test used in
`should_continue` and in `run_financial_agent`. -/
def hasPendingToolCalls (m : Message) : Bool :=
  !m.tool_calls.isEmpty

/-- `sum(len(m.tool_calls) for m in state["messages"] if hasattr(m, "tool_calls") and m.tool_calls)`
from `should_continue` (agent.py lines 70-74). -/
def totalToolCalls (msgs : List Message) : Nat :=
  ((msgs.filter (fun m => hasPendingToolCalls m)).map (fun m => m.tool_calls.length)).sum

/-- `should_continue` (agent.py lines 67-80).  The Python code indexes
`state["messages"][-1]`, which presupposes a non-empty message list; the
embedding takes that fact as an argument. -/
def should_continue (msgs : List Message) (h : msgs ≠ []) : String :=
  let last_message := msgs.getLast h
  if hasPendingToolCalls last_message then
    if 50 ≤ totalToolCalls msgs then "end" else "tools"
  else "end"

/-! ### Routing characterization (helper lemmas shared by the loop proofs) -/

lemma should_continue_eq_tools_iff (msgs : List Message) (h : msgs ≠ []) :
    should_continue msgs h = "tools" ↔
      (msgs.getLast h).tool_calls ≠ [] ∧ totalToolCalls msgs < 50 := by
  unfold should_continue hasPendingToolCalls
  by_cases h1 : (msgs.getLast h).tool_calls = []
  · simp [h1]
  · by_cases h2 : 50 ≤ totalToolCalls msgs
    · simp [h1, h2]
    · simp [h1, h2, Nat.lt_of_not_le h2]

lemma should_continue_eq_end_iff (msgs : List Message) (h : msgs ≠ []) :
    should_continue msgs h = "end" ↔
      (msgs.getLast h).tool_calls = [] ∨ 50 ≤ totalToolCalls msgs := by
  unfold should_continue hasPendingToolCalls
  by_cases h1 : (msgs.getLast h).tool_calls = []
  · simp [h1]
  · by_cases h2 : 50 ≤ totalToolCalls msgs
    · simp [h1, h2]
    · simp [h1, h2]

/-- C2: `should_continue` returns `"tools"` exactly when the latest message
carries at least one tool-invocation request and the cumulative tool-call count
over all messages is below 50; it returns `"end"` exactly when the latest
message carries no requests or the cumulative count is at or above 50. -/
theorem should_continue_characterization (msgs : List Message) (h : msgs ≠ []) :
    (should_continue msgs h = "tools" ↔
      (msgs.getLast h).tool_calls ≠ [] ∧ totalToolCalls msgs < 50) ∧
    (should_continue msgs h = "end" ↔
      (msgs.getLast h).tool_calls = [] ∨ 50 ≤ totalToolCalls msgs) :=
  ⟨should_continue_eq_tools_iff msgs h, should_continue_eq_end_iff msgs h⟩

/-- Witness for C2 at a concrete state: a single assistant message with one
pending tool call routes to `"tools"`. -/
theorem should_continue_characterization_witness :
    should_continue [Message.mk "assistant" "go" [ToolCall.mk (some "get_company_info")]]
      (by simp) = "tools" :=
  (should_continue_characterization
      [Message.mk "assistant" "go" [ToolCall.mk (some "get_company_info")]] (by simp)).1.mpr
    (by decide)

/-! ## Agent state machine (create_financial_agent, agent.py lines 85-126)

The graph is `planner → agent → (route: tools | END)`, with `tools → agent`
the only cycle.  The language model and the tool executors are oracles; the
loop itself is embedded with explicit fuel, and `ended = true` records that the
run reached `END` via `should_continue` (rather than by running out of fuel). -/

/-- `ToolNode(tools)`: executes every requested invocation of the latest
assistant message and appends one tool-result message per request.  Tool
messages carry no `tool_calls` attribute. -/
def toolNode (toolResult : ToolCall → String) (m : Message) : List Message :=
  m.tool_calls.map (fun tc => Message.mk "tool" (toolResult tc) [])

/-- Outcome of one bounded run of the agent loop: the final conversation
state, the number of tool invocations actually executed, and whether the run
reached `END` through the conditional edge. -/
structure RunResult where
  messages : List Message
  executed : Nat
  ended : Bool
  deriving Repr, DecidableEq

/-- The `agent → (tools → agent)* → END` cycle of the compiled graph: invoke
the model, route with `should_continue`, execute the requested tools, repeat. -/
def agent_loop (model : List Message → Message) (toolResult : ToolCall → String) :
    Nat → List Message → RunResult
  | 0, msgs => RunResult.mk msgs 0 false
  | Nat.succ fuel, msgs =>
    if should_continue (msgs ++ [model msgs]) (by simp) = "tools" then
      RunResult.mk
        (agent_loop model toolResult fuel
          ((msgs ++ [model msgs]) ++ toolNode toolResult (model msgs))).messages
        ((model msgs).tool_calls.length +
          (agent_loop model toolResult fuel
            ((msgs ++ [model msgs]) ++ toolNode toolResult (model msgs))).executed)
        (agent_loop model toolResult fuel
          ((msgs ++ [model msgs]) ++ toolNode toolResult (model msgs))).ended
    else
      RunResult.mk (msgs ++ [model msgs]) 0 true

/-- The full graph of `create_financial_agent`: the planner node appends the
plan as a system-authored message (never a tool call), then control enters the
agent/tools cycle. -/
def run_agent_graph (model : List Message → Message) (toolResult : ToolCall → String)
    (plan : String) (fuel : Nat) (init : List Message) : RunResult :=
  agent_loop model toolResult fuel (init ++ [Message.mk "system" ("Plan:\n" ++ plan) []])

lemma totalToolCalls_append (l1 l2 : List Message) :
    totalToolCalls (l1 ++ l2) = totalToolCalls l1 + totalToolCalls l2 := by
  simp [totalToolCalls, List.filter_append]

lemma totalToolCalls_single (m : Message) :
    totalToolCalls [m] = m.tool_calls.length := by
  cases hc : m.tool_calls with
  | nil => simp [totalToolCalls, List.filter, hasPendingToolCalls, hc]
  | cons a l => simp [totalToolCalls, List.filter, hasPendingToolCalls, hc]

lemma totalToolCalls_toolNode (toolResult : ToolCall → String) (m : Message) :
    totalToolCalls (toolNode toolResult m) = 0 := by
  unfold toolNode
  induction m.tool_calls with
  | nil => simp [totalToolCalls]
  | cons tc rest ih =>
    simp only [List.map_cons]
    have : (Message.mk "tool" (toolResult tc) []) :: rest.map
        (fun tc => Message.mk "tool" (toolResult tc) []) =
        [Message.mk "tool" (toolResult tc) []] ++ rest.map
        (fun tc => Message.mk "tool" (toolResult tc) []) := rfl
    rw [this, totalToolCalls_append, ih]
    simp [totalToolCalls_single]

/-- Invariant of the loop: starting below the budget with enough fuel, the run
reaches `END` and the executed tool invocations plus the tool calls already in
the state never exceed the budget of 50. -/
lemma agent_loop_bounded (model : List Message → Message) (toolResult : ToolCall → String)
    (hm : ∀ msgs, (model msgs).tool_calls ≠ []) :
    ∀ fuel msgs, totalToolCalls msgs ≤ 49 → 51 ≤ totalToolCalls msgs + fuel →
      (agent_loop model toolResult fuel msgs).ended = true ∧
      (agent_loop model toolResult fuel msgs).executed + totalToolCalls msgs ≤ 50 := by
  intro fuel
  induction fuel with
  | zero =>
    intro msgs h49 h51
    exfalso; omega
  | succ n ih =>
    intro msgs h49 h51
    simp only [agent_loop]
    split
    · next hroute =>
      have hiff := (should_continue_eq_tools_iff (msgs ++ [model msgs]) (by simp)).mp hroute
      have htot : totalToolCalls (msgs ++ [model msgs]) =
          totalToolCalls msgs + (model msgs).tool_calls.length := by
        rw [totalToolCalls_append, totalToolCalls_single]
      have hlt : totalToolCalls msgs + (model msgs).tool_calls.length < 50 := by
        rw [htot] at hiff
        exact hiff.2
      have hlen : 1 ≤ (model msgs).tool_calls.length := by
        cases hc : (model msgs).tool_calls with
        | nil => exact absurd hc (hm msgs)
        | cons a l => simp
      have htot2 : totalToolCalls ((msgs ++ [model msgs]) ++ toolNode toolResult (model msgs)) =
          totalToolCalls msgs + (model msgs).tool_calls.length := by
        rw [totalToolCalls_append, totalToolCalls_toolNode, htot]
        omega
      have hrec := ih ((msgs ++ [model msgs]) ++ toolNode toolResult (model msgs))
        (by omega) (by omega)
      have h2 := hrec.2
      rw [htot2] at h2
      exact ⟨hrec.1, by simp only []; omega⟩
    · next hroute =>
      refine ⟨rfl, ?_⟩
      simp only []
      omega

/-- C1: in every run of the agent state machine in which the model requests at
least one tool call on every ACT step, the run reaches `END` (for any fuel of
at least 51 loop turns, i.e. it never loops indefinitely) after at most 50 —
the call budget — total tool invocations. -/
theorem agent_run_terminates (model : List Message → Message) (toolResult : ToolCall → String)
    (plan : String) (init : List Message) (fuel : Nat)
    (hm : ∀ msgs, (model msgs).tool_calls ≠ [])
    (h0 : totalToolCalls init = 0) (hfuel : 51 ≤ fuel) :
    (run_agent_graph model toolResult plan fuel init).ended = true ∧
    (run_agent_graph model toolResult plan fuel init).executed ≤ 50 := by
  unfold run_agent_graph
  have h1 : totalToolCalls (init ++ [Message.mk "system" ("Plan:\n" ++ plan) []]) = 0 := by
    rw [totalToolCalls_append, totalToolCalls_single, h0]
    rfl
  have := agent_loop_bounded model toolResult hm fuel
    (init ++ [Message.mk "system" ("Plan:\n" ++ plan) []]) (by omega) (by omega)
  exact ⟨this.1, by omega⟩

/-- A model stub that always requests exactly one tool call, used to witness C1. -/
def constToolModel : List Message → Message :=
  fun _ => Message.mk "assistant" "fetching" [ToolCall.mk (some "get_company_info")]

/-- Witness for C1: with a model that requests one tool call on every turn and
the standard initial state (system prompt plus user query, no tool calls), the
run reaches `END` within the budget. -/
theorem agent_run_terminates_witness :
    (run_agent_graph constToolModel (fun _ => "ok") "demo plan" 51
      [Message.mk "system" "prompt" [], Message.mk "user" "Is MSFT a buy" []]).ended = true ∧
    (run_agent_graph constToolModel (fun _ => "ok") "demo plan" 51
      [Message.mk "system" "prompt" [], Message.mk "user" "Is MSFT a buy" []]).executed ≤ 50 :=
  agent_run_terminates constToolModel (fun _ => "ok") "demo plan"
    [Message.mk "system" "prompt" [], Message.mk "user" "Is MSFT a buy" []] 51
    (fun _ => by simp [constToolModel]) (by decide) (by decide)

/-! ## Period correction (correct_period_parameter, tools.py lines 90-143)

The LLM fallback is an oracle `llm : String → String` giving the raw content of
the model's reply to the correction prompt for a given input period.  Python's
`str.lower` and `str.strip` are modelled character-wise (the inputs of interest
are ASCII), with structural recursion so that every definition evaluates. -/

/-- Python `str.lower`, character by character. -/
def pyLower (s : String) : String :=
  String.mk (s.data.map Char.toLower)

/-- Python `str.strip`: drop leading and trailing whitespace. -/
def pyStrip (s : String) : String :=
  String.mk (((s.data.dropWhile Char.isWhitespace).reverse.dropWhile
    Char.isWhitespace).reverse)

/-- The Valid Period Set (`valid_periods` in tools.py line 138). -/
def valid_periods : List String :=
  ["1d", "5d", "1mo", "3mo", "6mo", "1y", "2y", "5y", "10y", "ytd", "max"]

/-- `period_mapping` (tools.py lines 99-112): direct alias table for common cases. -/
def period_mapping : List (String × String) :=
  [("1w", "5d"), ("2w", "1mo"), ("3w", "1mo"), ("4w", "1mo"),
   ("week", "5d"), ("month", "1mo"), ("year", "1y"),
   ("3m", "3mo"), ("6m", "6mo"), ("2y", "2y"), ("5y", "5y"), ("10y", "10y")]

/-- Python `dict` lookup (`period_lower in period_mapping` / `period_mapping[...]`). -/
def dictLookup : List (String × String) → String → Option String
  | [], _ => none
  | (k, v) :: rest, key => if k = key then some v else dictLookup rest key

/-- `correct_period_parameter` (tools.py lines 90-143): direct table lookup on
the lowercased, stripped input; otherwise the LLM fallback, whose stripped
answer is kept only if it is in the Valid Period Set; otherwise `'1mo'`.
(The Python locals `period_lower` and `corrected` are inlined.) -/
def correct_period_parameter (llm : String → String) (invalid_period : String) : String :=
  match dictLookup period_mapping (pyStrip (pyLower invalid_period)) with
  | some v => v
  | none =>
    if pyStrip (llm invalid_period) ∈ valid_periods then pyStrip (llm invalid_period)
    else "1mo"

lemma dictLookup_mem_values :
    ∀ (l : List (String × String)) (key v : String),
      dictLookup l key = some v → v ∈ l.map Prod.snd := by
  intro l
  induction l with
  | nil => intro key v h; simp [dictLookup] at h
  | cons kv rest ih =>
    intro key v h
    obtain ⟨k, w⟩ := kv
    simp only [dictLookup] at h
    by_cases hk : k = key
    · rw [if_pos hk] at h
      injection h with h
      rw [List.map_cons]
      exact h ▸ List.mem_cons_self _ _
    · rw [if_neg hk] at h
      rw [List.map_cons]
      exact List.mem_cons_of_mem _ (ih key v h)

/-- Totality: whatever the LLM does, the returned period is valid. -/
lemma correct_period_mem_valid (llm : String → String) (p : String) :
    correct_period_parameter llm p ∈ valid_periods := by
  unfold correct_period_parameter
  split
  · next v hv =>
    have hmem := dictLookup_mem_values period_mapping (pyStrip (pyLower p)) v hv
    simp [period_mapping] at hmem
    simp [valid_periods]
    tauto
  · next =>
    by_cases hc : pyStrip (llm p) ∈ valid_periods
    · rw [if_pos hc]; exact hc
    · rw [if_neg hc]; simp [valid_periods]

/-- Reduction of `correct_period_parameter` when the alias table misses. -/
lemma correct_period_no_alias (llm : String → String) (p : String)
    (hnone : dictLookup period_mapping (pyStrip (pyLower p)) = none) :
    correct_period_parameter llm p =
      if pyStrip (llm p) ∈ valid_periods then pyStrip (llm p) else "1mo" := by
  unfold correct_period_parameter
  split
  · next v hv => rw [hnone] at hv; cases hv
  · next => rfl

/-- C3: for every input string and every behavior of the LLM fallback,
`correct_period_parameter` returns a member of the Valid Period Set; alias-table
hits return the table value (in particular `"1w" ↦ "5d"` and `"month" ↦ "1mo"`),
an LLM answer in the set is returned as given, and an LLM answer outside the
set yields the default `"1mo"`. -/
theorem correct_period_total_spec (llm : String → String) (p : String) :
    correct_period_parameter llm p ∈ valid_periods ∧
    correct_period_parameter llm "1w" = "5d" ∧
    correct_period_parameter llm "month" = "1mo" ∧
    (∀ v, dictLookup period_mapping (pyStrip (pyLower p)) = some v →
      correct_period_parameter llm p = v) ∧
    (dictLookup period_mapping (pyStrip (pyLower p)) = none →
      (pyStrip (llm p) ∈ valid_periods → correct_period_parameter llm p = pyStrip (llm p)) ∧
      (pyStrip (llm p) ∉ valid_periods → correct_period_parameter llm p = "1mo")) := by
  refine ⟨correct_period_mem_valid llm p, rfl, rfl, ?_, ?_⟩
  · intro v hv
    unfold correct_period_parameter
    split
    · next w hw => rw [hv] at hw; injection hw with hw; rw [hw]
    · next hw => rw [hv] at hw; cases hw
  · intro hnone
    rw [correct_period_no_alias llm p hnone]
    constructor
    · intro hin; rw [if_pos hin]
    · intro hout; rw [if_neg hout]

/-- Witness for C3: a stubbed model returning the out-of-set value `"bogus"`
for the unresolved input `"sometime"` yields the default `"1mo"`. -/
theorem correct_period_total_spec_witness :
    correct_period_parameter (fun _ => "bogus") "sometime" = "1mo" :=
  ((correct_period_total_spec (fun _ => "bogus") "sometime").2.2.2.2
    (by decide)).2 (by decide)

/-- Counterexample to C4: `"1d"` is a member of the Valid Period Set, but it is
not in the alias table, so it falls through to the LLM fallback; a model that
answers `"max"` (itself valid) makes `correct_period_parameter` return `"max"`,
not the input `"1d"` — idempotence on already-valid periods fails. -/
theorem correct_period_not_idempotent_cex :
    "1d" ∈ valid_periods ∧
    correct_period_parameter (fun _ => "max") "1d" = "max" ∧
    ("max" : String) ≠ "1d" := by
  decide

/-- C4 amended: for every already-valid period and every LLM behavior the
result is still a member of the Valid Period Set; the result equals the input
for the valid periods that appear in the alias table (`2y`, `5y`, `10y`)
regardless of the LLM, and for the remaining valid periods whenever the LLM
fallback's stripped answer is the input itself.  (The converse fails: at
`"1mo"` an out-of-set LLM answer takes the default branch, which happens to
return the input.) -/
theorem correct_period_valid_amended (llm : String → String) (p : String)
    (hp : p ∈ valid_periods) :
    correct_period_parameter llm p ∈ valid_periods ∧
    (p ∈ (["2y", "5y", "10y"] : List String) → correct_period_parameter llm p = p) ∧
    (pyStrip (llm p) = p → correct_period_parameter llm p = p) := by
  refine ⟨correct_period_mem_valid llm p, ?_, ?_⟩
  · intro h3
    simp at h3
    rcases h3 with rfl | rfl | rfl <;> rfl
  · intro htrim
    simp [valid_periods] at hp
    rcases hp with rfl | rfl | rfl | rfl | rfl | rfl | rfl | rfl | rfl | rfl | rfl
    all_goals first
      | rfl
      | (rw [correct_period_no_alias llm _ (by decide), htrim]; decide)

/-- Witness for the amended C4: an LLM that echoes its input leaves the valid
period `"1d"` unchanged. -/
theorem correct_period_valid_amended_witness :
    correct_period_parameter (fun q => q) "1d" = "1d" :=
  (correct_period_valid_amended (fun q => q) "1d" (by decide)).2.2 (by decide)

/-! ## Resilient fetch (CompanyData.safe_get, stock_fetcher.py lines 17-34)

One read attempt on the external client either yields data (possibly `None` or
an empty dict, which the code converts into a `ValueError`) or raises with some
message.  The sequence of attempt outcomes is an oracle `attempt : Nat → AttemptOutcome`
(attempt `i` is the `i`-th iteration of the `for` loop).  Python's substring
test `"429" in str(e)` is modelled structurally on character lists. -/

/-- Outcome of `getattr(ticker, attr_name)` on one attempt. -/
inductive AttemptOutcome where
  /-- `getattr` returned; `isEmpty` is `data is None or (isinstance(data, dict) and not data)`. -/
  | value (isEmpty : Bool) (payload : String)
  /-- `getattr` raised an exception whose `str` is `msg`. -/
  | raised (msg : String)
  deriving Repr, DecidableEq

/-- Whether `pat` is a prefix of `s` (character lists). -/
def listStartsWith : List Char → List Char → Bool
  | _, [] => true
  | [], _ :: _ => false
  | a :: s, b :: pat => a = b && listStartsWith s pat

/-- Whether `pat` occurs contiguously inside `s` (character lists). -/
def listHasSub (pat : List Char) : List Char → Bool
  | [] => listStartsWith [] pat
  | a :: rest => listStartsWith (a :: rest) pat || listHasSub pat rest

/-- Python `pat in s` on strings. -/
def pyIn (pat s : String) : Bool :=
  listHasSub pat.data s.data

/-- The rate-limit classifier of `safe_get`:
`"429" in str(e) or "Too Many Requests" in str(e)`. -/
def is_rate_limited (msg : String) : Bool :=
  pyIn "429" msg || pyIn "Too Many Requests" msg

/-- The `for _ in range(max_retries)` loop of `safe_get`, with `rem` remaining
iterations and `i` the index of the next attempt.  Returns the fetched payload
(`none` when the loop breaks or exhausts) paired with the number of attempts
actually made.  An empty response raises `ValueError("Empty response from Yahoo")`,
which the handler classifies like any other exception. -/
def safe_get_loop (attempt : Nat → AttemptOutcome) : Nat → Nat → Option String × Nat
  | _, 0 => (none, 0)
  | i, Nat.succ rem =>
    match attempt i with
    | AttemptOutcome.value false payload => (some payload, 1)
    | AttemptOutcome.value true _ =>
      if is_rate_limited "Empty response from Yahoo" then
        ((safe_get_loop attempt (i + 1) rem).1, (safe_get_loop attempt (i + 1) rem).2 + 1)
      else (none, 1)
    | AttemptOutcome.raised msg =>
      if is_rate_limited msg then
        ((safe_get_loop attempt (i + 1) rem).1, (safe_get_loop attempt (i + 1) rem).2 + 1)
      else (none, 1)

/-- `CompanyData.safe_get` with its retry budget (default `max_retries = 3`). -/
def safe_get (attempt : Nat → AttemptOutcome) (max_retries : Nat) : Option String × Nat :=
  safe_get_loop attempt 0 max_retries

/-- An attempt that succeeded: `getattr` returned non-empty data. -/
def attemptSucceeded : AttemptOutcome → Bool
  | AttemptOutcome.value false _ => true
  | _ => false

/-- An attempt that failed with a failure the code does not retry: an empty
response, or an exception whose message carries no rate-limit marker. -/
def attemptFailedFast : AttemptOutcome → Bool
  | AttemptOutcome.value true _ => true
  | AttemptOutcome.value false _ => false
  | AttemptOutcome.raised msg => !is_rate_limited msg

lemma empty_response_not_rate_limited :
    is_rate_limited "Empty response from Yahoo" = false := by decide

lemma safe_get_loop_attempts_le (attempt : Nat → AttemptOutcome) :
    ∀ rem i, (safe_get_loop attempt i rem).2 ≤ rem := by
  intro rem
  induction rem with
  | zero => intro i; simp [safe_get_loop]
  | succ n ih =>
    intro i
    cases hatt : attempt i with
    | value isEmpty payload =>
      cases isEmpty with
      | false => simp [safe_get_loop, hatt]
      | true => simp [safe_get_loop, hatt, empty_response_not_rate_limited]
    | raised msg =>
      by_cases hr : is_rate_limited msg = true
      · have := ih (i + 1)
        simp [safe_get_loop, hatt, hr]
        omega
      · simp [safe_get_loop, hatt, hr]

lemma safe_get_loop_fail_fast (attempt : Nat → AttemptOutcome) :
    ∀ rem i k, attemptFailedFast (attempt (i + k)) = true →
      (safe_get_loop attempt i rem).2 ≤ k + 1 := by
  intro rem
  induction rem with
  | zero => intro i k _; simp [safe_get_loop]
  | succ n ih =>
    intro i k hk
    cases hatt : attempt i with
    | value isEmpty payload =>
      cases isEmpty with
      | false => simp [safe_get_loop, hatt]
      | true => simp [safe_get_loop, hatt, empty_response_not_rate_limited]
    | raised msg =>
      by_cases hr : is_rate_limited msg = true
      · cases k with
        | zero =>
          rw [Nat.add_zero] at hk
          rw [hatt] at hk
          simp [attemptFailedFast, hr] at hk
        | succ k2 =>
          have hk2 : attemptFailedFast (attempt ((i + 1) + k2)) = true := by
            have : (i + 1) + k2 = i + (k2 + 1) := by omega
            rw [this]
            exact hk
          have := ih (i + 1) k2 hk2
          simp [safe_get_loop, hatt, hr]
          omega
      · simp [safe_get_loop, hatt, hr]

lemma safe_get_loop_none_of_no_success (attempt : Nat → AttemptOutcome)
    (hns : ∀ j, attemptSucceeded (attempt j) = false) :
    ∀ rem i, (safe_get_loop attempt i rem).1 = none := by
  intro rem
  induction rem with
  | zero => intro i; simp [safe_get_loop]
  | succ n ih =>
    intro i
    cases hatt : attempt i with
    | value isEmpty payload =>
      cases isEmpty with
      | false =>
        have := hns i
        rw [hatt] at this
        simp [attemptSucceeded] at this
      | true => simp [safe_get_loop, hatt, empty_response_not_rate_limited]
    | raised msg =>
      by_cases hr : is_rate_limited msg = true
      · simp [safe_get_loop, hatt, hr]
        exact ih (i + 1)
      · simp [safe_get_loop, hatt, hr]

/-- C5: `safe_get` makes at most `max_retries` attempts; after the first
failure not classified as a rate limit (only messages containing `"429"` or
`"Too Many Requests"` are retried) it makes no further attempt; and when no
attempt succeeds it returns `None` — never an exception (the embedding is a
total function). -/
theorem safe_get_retry_policy (attempt : Nat → AttemptOutcome) (max_retries : Nat) :
    (safe_get attempt max_retries).2 ≤ max_retries ∧
    (∀ i, attemptFailedFast (attempt i) = true →
      (safe_get attempt max_retries).2 ≤ i + 1) ∧
    ((∀ i, attemptSucceeded (attempt i) = false) →
      (safe_get attempt max_retries).1 = none) := by
  refine ⟨safe_get_loop_attempts_le attempt max_retries 0, ?_, ?_⟩
  · intro i hi
    have h0 : attemptFailedFast (attempt (0 + i)) = true := by
      rw [Nat.zero_add]; exact hi
    exact safe_get_loop_fail_fast attempt max_retries 0 i h0
  · intro hns
    exact safe_get_loop_none_of_no_success attempt hns max_retries 0

/-- Witness for C5: a data-source stub that always raises a non-rate-limit
error makes `safe_get` with the default budget of 3 return `None` after a
single attempt. -/
theorem safe_get_retry_policy_witness :
    (safe_get (fun _ => AttemptOutcome.raised "connection reset") 3).1 = none ∧
    (safe_get (fun _ => AttemptOutcome.raised "connection reset") 3).2 ≤ 1 := by
  have h := safe_get_retry_policy (fun _ => AttemptOutcome.raised "connection reset") 3
  exact ⟨h.2.2 (fun i => rfl), h.2.1 0 (by decide)⟩

/-! ## Symbol search (stock_fetcher.py lines 63-118 and tools.py lines 55-62)

The Yahoo search endpoint is an oracle: either the request/JSON parse raises
(`Except.error`) or it yields the (possibly empty) `quotes` list.  A missing
`quotes` key and an empty list are both falsy in Python and are modelled
together as `[]`. -/

/-- One entry of the endpoint's `quotes` list; `longname` and `shortname`
are optional keys read with `quote.get`. -/
structure YQuote where
  symbol : String
  longname : Option String
  shortname : Option String
  exchange : String
  quoteType : String
  deriving Repr, DecidableEq

/-- One entry of the `matches` list built by `CompanyData.search_stock_symbol`. -/
structure SymbolMatch where
  symbol : String
  name : String
  exchange : String
  quoteType : String
  deriving Repr, DecidableEq

/-- The result dict of `CompanyData.search_stock_symbol`:
`{"found": bool, "symbol": str, "name": str, "matches": list (field `matchList`), "message": str}`. -/
structure SearchResult where
  found : Bool
  symbol : String
  name : String
  matchList : List SymbolMatch
  message : String
  deriving Repr, DecidableEq

/-- `{"symbol": ..., "name": quote.get('longname', quote.get('shortname', '')), ...}`. -/
def mkSymbolMatch (q : YQuote) : SymbolMatch :=
  SymbolMatch.mk q.symbol (q.longname.getD (q.shortname.getD "")) q.exchange q.quoteType

/-- `CompanyData.search_stock_symbol` (stock_fetcher.py lines 63-118). -/
def CompanyData_search_stock_symbol (endpoint : Except String (List YQuote))
    (company_name : String) : SearchResult :=
  match endpoint with
  | Except.error e =>
    SearchResult.mk false "" "" [] ("Error searching: " ++ e)
  | Except.ok [] =>
    SearchResult.mk false "" "" []
      ("No results found for '" ++ company_name ++ "'")
  | Except.ok (q :: rest) =>
    SearchResult.mk true (mkSymbolMatch q).symbol (mkSymbolMatch q).name
      (((q :: rest).take 5).map mkSymbolMatch)
      ("Found " ++ toString (((q :: rest).take 5).map mkSymbolMatch).length ++
        " match(es). Best: " ++ (mkSymbolMatch q).symbol)

/-- Python subscripting applied to a `bool`: `output['found']['symbol']` always
raises `TypeError: 'bool' object is not subscriptable`. -/
def pyBoolSubscript (b : Bool) (key : String) : Except String String :=
  Except.error ("TypeError: 'bool' object is not subscriptable (" ++
    toString b ++ "[" ++ key ++ "])")

/-- The `search_stock_symbol` tool (tools.py lines 55-62):
`return output['found']['symbol'][:3]` inside a blanket `try/except` that
falls back to `"UNKNOWN"`. -/
def tools_search_stock_symbol (endpoint : Except String (List YQuote))
    (company_name : String) : String :=
  match pyBoolSubscript
      (CompanyData_search_stock_symbol endpoint company_name).found "symbol" with
  | Except.ok fieldVal => String.mk (fieldVal.data.take 3)
  | Except.error _ => "UNKNOWN"

/-- C6 is a code bug: at a failing input where the endpoint finds a match
(`AAPL` for `Apple`), the inner search succeeds, yet the tool wrapper returns
`"UNKNOWN"` — indeed it returns `"UNKNOWN"` for every endpoint behavior,
because `output['found']['symbol']` subscripts a bool and the raised
`TypeError` is swallowed by the blanket `except`. -/
theorem tools_search_stock_symbol_bug :
    (CompanyData_search_stock_symbol
      (Except.ok [YQuote.mk "AAPL" (some "Apple Inc.") none "NMS" "EQUITY"])
      "Apple").found = true ∧
    (CompanyData_search_stock_symbol
      (Except.ok [YQuote.mk "AAPL" (some "Apple Inc.") none "NMS" "EQUITY"])
      "Apple").symbol = "AAPL" ∧
    tools_search_stock_symbol
      (Except.ok [YQuote.mk "AAPL" (some "Apple Inc.") none "NMS" "EQUITY"])
      "Apple" = "UNKNOWN" ∧
    (∀ (endpoint : Except String (List YQuote)) (name2 : String),
      tools_search_stock_symbol endpoint name2 = "UNKNOWN") :=
  ⟨rfl, rfl, rfl, fun _ _ => rfl⟩

/-! ## Entity cache (get_company_client, tools.py lines 12-19)

`_company_cache` is a dict from uppercased ticker to the `CompanyData` handle
constructed for it.  Object identity is modelled by a construction counter:
each constructed handle receives a fresh `hid`, so "same Handle object" is
`hid` equality, and "no new construction" is an unchanged counter. -/

/-- The cached client handle (`CompanyData(ticker)`), tagged with its
construction id. -/
structure CompanyDataHandle where
  hid : Nat
  ticker_symbol : String
  deriving Repr, DecidableEq

/-- The module-level `_company_cache` dict plus the construction counter. -/
structure CompanyCache where
  entries : List (String × CompanyDataHandle)
  next_id : Nat
  deriving Repr, DecidableEq

/-- Python dict lookup in `_company_cache` (`ticker in _company_cache`). -/
def cacheLookup : List (String × CompanyDataHandle) → String → Option CompanyDataHandle
  | [], _ => none
  | (k, hdl) :: rest, key => if k = key then some hdl else cacheLookup rest key

/-- Python `str.upper`, character by character. -/
def pyUpper (s : String) : String :=
  String.mk (s.data.map Char.toUpper)

/-- `get_company_client` (tools.py lines 12-19): uppercase the ticker, return
the cached handle if present, otherwise construct, insert and return a new one
(dict insertion appends in insertion order). -/
def get_company_client (c : CompanyCache) (ticker : String) :
    CompanyDataHandle × CompanyCache :=
  match cacheLookup c.entries (pyUpper ticker) with
  | some hdl => (hdl, c)
  | none =>
    (CompanyDataHandle.mk c.next_id (pyUpper ticker),
     CompanyCache.mk
       (c.entries ++ [(pyUpper ticker, CompanyDataHandle.mk c.next_id (pyUpper ticker))])
       (c.next_id + 1))

lemma cacheLookup_append_of_none (l1 l2 : List (String × CompanyDataHandle)) (key : String)
    (h : cacheLookup l1 key = none) :
    cacheLookup (l1 ++ l2) key = cacheLookup l2 key := by
  induction l1 with
  | nil => simp
  | cons kv rest ih =>
    obtain ⟨k, hdl⟩ := kv
    simp only [cacheLookup] at h
    by_cases hk : k = key
    · rw [if_pos hk] at h; cases h
    · rw [if_neg hk] at h
      simp only [List.cons_append, cacheLookup]
      rw [if_neg hk]
      exact ih h

/-- C7: for each identifier, in any letter casing, the first absent lookup
constructs and inserts the handle, and a second call with any casing of the
same identifier returns that same handle with the cache unchanged — in
particular the construction counter does not advance, so no second handle is
ever constructed. -/
theorem get_company_client_cached (c : CompanyCache) (s s2 : String)
    (hcase : pyUpper s = pyUpper s2) :
    (get_company_client (get_company_client c s).2 s2).1 = (get_company_client c s).1 ∧
    (get_company_client (get_company_client c s).2 s2).2 = (get_company_client c s).2 ∧
    (cacheLookup c.entries (pyUpper s) = none →
      (get_company_client c s).1 = CompanyDataHandle.mk c.next_id (pyUpper s) ∧
      cacheLookup (get_company_client c s).2.entries (pyUpper s) =
        some (get_company_client c s).1) := by
  cases hl : cacheLookup c.entries (pyUpper s) with
  | some hdl =>
    have h1 : get_company_client c s = (hdl, c) := by
      unfold get_company_client
      rw [hl]
    have hl2 : cacheLookup c.entries (pyUpper s2) = some hdl := by
      rw [← hcase]; exact hl
    have h2 : get_company_client c s2 = (hdl, c) := by
      unfold get_company_client
      rw [hl2]
    rw [h1]
    refine ⟨?_, ?_, ?_⟩
    · simp [h2]
    · simp [h2]
    · intro hnone; simp at hnone
  | none =>
    have h1 : get_company_client c s =
        (CompanyDataHandle.mk c.next_id (pyUpper s),
         CompanyCache.mk
           (c.entries ++ [(pyUpper s, CompanyDataHandle.mk c.next_id (pyUpper s))])
           (c.next_id + 1)) := by
      unfold get_company_client
      rw [hl]
    have hlook : cacheLookup
        (c.entries ++ [(pyUpper s, CompanyDataHandle.mk c.next_id (pyUpper s))])
        (pyUpper s2) = some (CompanyDataHandle.mk c.next_id (pyUpper s)) := by
      rw [← hcase,
        cacheLookup_append_of_none c.entries _ (pyUpper s) hl]
      simp [cacheLookup]
    have h2 : get_company_client
        (CompanyCache.mk
          (c.entries ++ [(pyUpper s, CompanyDataHandle.mk c.next_id (pyUpper s))])
          (c.next_id + 1)) s2 =
        (CompanyDataHandle.mk c.next_id (pyUpper s),
         CompanyCache.mk
           (c.entries ++ [(pyUpper s, CompanyDataHandle.mk c.next_id (pyUpper s))])
           (c.next_id + 1)) := by
      unfold get_company_client
      rw [hlook]
    rw [h1]
    refine ⟨?_, ?_, ?_⟩
    · rw [h2]
    · rw [h2]
    · intro _
      refine ⟨rfl, ?_⟩
      rw [cacheLookup_append_of_none c.entries _ (pyUpper s) hl]
      simp [cacheLookup]

/-- Witness for C7: with an empty cache, `"aapl"` then `"AAPL"` yield the same
handle and the same cache. -/
theorem get_company_client_cached_witness :
    (get_company_client (get_company_client (CompanyCache.mk [] 0) "aapl").2 "AAPL").1 =
      (get_company_client (CompanyCache.mk [] 0) "aapl").1 ∧
    (get_company_client (get_company_client (CompanyCache.mk [] 0) "aapl").2 "AAPL").2 =
      (get_company_client (CompanyCache.mk [] 0) "aapl").2 := by
  have h := get_company_client_cached (CompanyCache.mk [] 0) "aapl" "AAPL" (by decide)
  exact ⟨h.1, h.2.1⟩

/-! ## Price history (CompanyData.get_ticker_data, stock_fetcher.py lines 46-61;
get_stock_history tool, tools.py lines 69-81)

A pandas DataFrame is modelled as its list of rows; `pd.DataFrame()` is the
explicitly-typed-empty value `PyDataFrame.mk []` (as opposed to a null, which
in this embedding would require an `Option`).  The `self.company.history(...)`
call is an oracle `historyCall` from the period and interval actually passed
to the resulting frame. -/

/-- A pandas DataFrame, reduced to its rows of rendered cells. -/
structure PyDataFrame where
  rows : List (List String)
  deriving Repr, DecidableEq

/-- `df.tail(n)`: the last `n` rows. -/
def PyDataFrame.tail (df : PyDataFrame) (n : Nat) : PyDataFrame :=
  PyDataFrame.mk (df.rows.drop (df.rows.length - n))

/-- `df.to_string()`, abstracted to any injective rendering of the rows. -/
def PyDataFrame.to_string (df : PyDataFrame) : String :=
  toString df.rows

/-- `CompanyData.get_ticker_data` (stock_fetcher.py lines 46-61): probe the
`history` attribute through `safe_get` (budget 3); if that yields data, call
`self.company.history(period=period, interval=interval)` with the caller's
arguments unchanged; otherwise return `pd.DataFrame()`. -/
def CompanyData_get_ticker_data (attempt : Nat → AttemptOutcome)
    (historyCall : String → String → PyDataFrame)
    (period interval : String) : PyDataFrame :=
  match (safe_get attempt 3).1 with
  | some _ => historyCall period interval
  | none => PyDataFrame.mk []

/-- The `get_stock_history` tool (tools.py lines 69-81):
`client.get_ticker_data(period=period, interval=interval).tail(10).to_string()`.
The body performs no period validation or correction of its own. -/
def tools_get_stock_history (attempt : Nat → AttemptOutcome)
    (historyCall : String → String → PyDataFrame)
    (period interval : String) : String :=
  ((CompanyData_get_ticker_data attempt historyCall period interval).tail 10).to_string

/-- Counterexample to C8: with the invalid period `"1w"` (not resolvable — it
is outside the Valid Period Set and untouched here by the Period Correction
tool) and an instrumented `history` oracle that records the arguments it
receives, the underlying data call is made and receives the raw `"1w"`
unchanged: no validation happens before the call. -/
theorem get_stock_history_no_validation_cex :
    ("1w" ∈ valid_periods → False) ∧
    CompanyData_get_ticker_data (fun _ => AttemptOutcome.value false "history")
      (fun p i => PyDataFrame.mk [[p, i]]) "1w" "1d" = PyDataFrame.mk [["1w", "1d"]] := by
  refine ⟨by decide, rfl⟩

/-- C8 amended: `get_stock_history` performs no period validation itself — when
the resilient fetch yields data, the underlying call receives the caller's
period and interval unchanged (any correction happens only if the model chose
to call the Period Correction tool beforehand) — and when the resilient fetch
yields nothing, the result is the explicitly-typed-empty DataFrame, not null. -/
theorem get_stock_history_amended (attempt : Nat → AttemptOutcome)
    (historyCall : String → String → PyDataFrame) (period interval : String) :
    ((safe_get attempt 3).1 ≠ none →
      CompanyData_get_ticker_data attempt historyCall period interval =
        historyCall period interval) ∧
    ((safe_get attempt 3).1 = none →
      CompanyData_get_ticker_data attempt historyCall period interval =
        PyDataFrame.mk []) ∧
    tools_get_stock_history attempt historyCall period interval =
      ((CompanyData_get_ticker_data attempt historyCall period interval).tail 10).to_string := by
  refine ⟨?_, ?_, rfl⟩
  · intro hs
    unfold CompanyData_get_ticker_data
    cases hres : (safe_get attempt 3).1 with
    | some payload => rfl
    | none => exact absurd hres hs
  · intro hs
    unfold CompanyData_get_ticker_data
    rw [hs]

/-- Witness for the amended C8: an adapter stub that always raises a
non-rate-limit error makes `get_ticker_data` return the empty DataFrame. -/
theorem get_stock_history_amended_witness :
    CompanyData_get_ticker_data (fun _ => AttemptOutcome.raised "boom")
      (fun p i => PyDataFrame.mk [[p, i]]) "1mo" "1d" = PyDataFrame.mk [] :=
  (get_stock_history_amended (fun _ => AttemptOutcome.raised "boom")
    (fun p i => PyDataFrame.mk [[p, i]]) "1mo" "1d").2.1 (by decide)

/-! ## Run coordinator (run_financial_agent, agent.py lines 128-187;
Logger, database.py lines 6-32)

`app.invoke` has already produced the final conversation state (an oracle
input here); the OpenAI callback counters are an oracle record `cb`; the whole
audit-sink interaction (`Logger(...)`, `connect`, `log_agent_run`, `close`) is
one oracle of type `Except String Unit`, since any exception raised anywhere
inside the `try` block lands in the same `except Exception` handler.  The
float `round(cb.total_cost, 6)` is carried through as an opaque value. -/

/-- The side-channel usage report of `get_openai_callback`. -/
structure CallbackStats where
  total_tokens : Nat
  prompt_tokens : Nat
  completion_tokens : Nat
  total_cost_usd : Int
  successful_requests : Nat
  deriving Repr, DecidableEq

/-- The metadata dict built by `run_financial_agent` (agent.py lines 163-172). -/
structure RunMetadata where
  total_tokens : Nat
  prompt_tokens : Nat
  completion_tokens : Nat
  total_cost_usd : Int
  successful_requests : Nat
  llm_calls : Nat
  tool_calls : Nat
  tools_used : List (String × Nat)
  deriving Repr, DecidableEq

/-- Python `tools_used.get(name, 0)`. -/
def getCount : List (String × Nat) → String → Nat
  | [], _ => 0
  | (k, v) :: rest, key => if k = key then v else getCount rest key

/-- Python `tools_used[name] = v`: replace in place if present, append if absent. -/
def setCount : List (String × Nat) → String → Nat → List (String × Nat)
  | [], key, v => [(key, v)]
  | (k, w) :: rest, key, v =>
    if k = key then (key, v) :: rest else (k, w) :: setCount rest key v

/-- `tools_used[tool_name] = tools_used.get(tool_name, 0) + 1` for one
tool-invocation request (agent.py lines 158-160). -/
def tallyToolCall (counts : List (String × Nat)) (tc : ToolCall) : List (String × Nat) :=
  setCount counts (tc.name.getD "Unknown") (getCount counts (tc.name.getD "Unknown") + 1)

/-- The scan of the final conversation state (agent.py lines 150-160):
`tool_calls` total and per-name `tools_used` counts, tallied from the same
pass over the messages carrying tool-invocation requests. -/
def scanToolCalls (msgs : List Message) : Nat × List (String × Nat) :=
  msgs.foldl
    (fun acc m =>
      if hasPendingToolCalls m then
        (acc.1 + m.tool_calls.length, m.tool_calls.foldl tallyToolCall acc.2)
      else acc)
    (0, [])

/-- The audit-sink step of `run_financial_agent` (agent.py lines 176-184): the
`try/except` around the Logger calls, returning the locally printed warning
when the sink failed and nothing otherwise.  No exception escapes. -/
def audit_log_step (enable_logging : Bool) (sink : Except String Unit) : Option String :=
  if enable_logging then
    match sink with
    | Except.ok _ => none
    | Except.error e => some ("Warning: Failed to log to MotherDuck: " ++ e)
  else none

/-- `run_financial_agent` (agent.py lines 128-187) after `app.invoke`: scan the
final state for tool-call counts, read the last message's content as the
answer, assemble the metadata, run the guarded audit-sink step, and return the
`(answer, metadata)` pair.  (`result["messages"]` is never empty — the initial
system and human messages are always present — so `[-1]` is modelled with a
default that is never reached in a real run.) -/
def run_financial_agent (final_messages : List Message) (cb : CallbackStats)
    (enable_logging : Bool) (sink : Except String Unit) : String × RunMetadata :=
  match audit_log_step enable_logging sink with
  | _ =>
    ((final_messages.getLastD (Message.mk "" "" [])).content,
     RunMetadata.mk cb.total_tokens cb.prompt_tokens cb.completion_tokens
       cb.total_cost_usd cb.successful_requests cb.successful_requests
       (scanToolCalls final_messages).1 (scanToolCalls final_messages).2)

/-- C9: the `(answerText, metadata)` pair returned by `run_financial_agent`
with logging enabled is the same for every behavior of the audit sink — in
particular for a sink that fails to construct, connect or write — and a
failing sink produces only a locally logged warning, while a successful sink
produces none.  No sink exception crosses the run boundary: the embedded run
is a total function into the pair type. -/
theorem run_financial_agent_sink_isolated (final_messages : List Message)
    (cb : CallbackStats) (sink sink2 : Except String Unit) :
    run_financial_agent final_messages cb true sink =
      run_financial_agent final_messages cb true sink2 ∧
    (∀ e, audit_log_step true (Except.error e) =
      some ("Warning: Failed to log to MotherDuck: " ++ e)) ∧
    audit_log_step true (Except.ok ()) = none :=
  ⟨rfl, fun _ => rfl, rfl⟩

/-- Sum of the per-tool counts (`sum(tools_used.values())`). -/
def sumCounts (counts : List (String × Nat)) : Nat :=
  (counts.map Prod.snd).sum

lemma sumCounts_tallyToolCall (counts : List (String × Nat)) (tc : ToolCall) :
    sumCounts (tallyToolCall counts tc) = sumCounts counts + 1 := by
  unfold tallyToolCall
  induction counts with
  | nil => simp [setCount, getCount, sumCounts]
  | cons kv rest ih =>
    obtain ⟨k, w⟩ := kv
    by_cases hk : k = tc.name.getD "Unknown"
    · simp only [setCount, getCount, if_pos hk, sumCounts, List.map_cons, List.sum_cons]
      omega
    · simp only [setCount, getCount, if_neg hk, sumCounts, List.map_cons, List.sum_cons] at ih ⊢
      omega

lemma sumCounts_foldl_tally (tcs : List ToolCall) :
    ∀ counts, sumCounts (tcs.foldl tallyToolCall counts) = sumCounts counts + tcs.length := by
  induction tcs with
  | nil => intro counts; simp
  | cons tc rest ih =>
    intro counts
    simp only [List.foldl_cons, List.length_cons]
    rw [ih (tallyToolCall counts tc), sumCounts_tallyToolCall]
    omega

lemma scanToolCalls_consistent (msgs : List Message) :
    (scanToolCalls msgs).1 = sumCounts (scanToolCalls msgs).2 := by
  unfold scanToolCalls
  suffices h : ∀ acc : Nat × List (String × Nat), acc.1 = sumCounts acc.2 →
      (msgs.foldl
        (fun acc m =>
          if hasPendingToolCalls m then
            (acc.1 + m.tool_calls.length, m.tool_calls.foldl tallyToolCall acc.2)
          else acc)
        acc).1 =
      sumCounts
        (msgs.foldl
          (fun acc m =>
            if hasPendingToolCalls m then
              (acc.1 + m.tool_calls.length, m.tool_calls.foldl tallyToolCall acc.2)
            else acc)
          acc).2 by
    exact h (0, []) (by simp [sumCounts])
  induction msgs with
  | nil => intro acc hacc; simpa using hacc
  | cons m rest ih =>
    intro acc hacc
    simp only [List.foldl_cons]
    by_cases hm : hasPendingToolCalls m = true
    · rw [if_pos hm]
      exact ih (acc.1 + m.tool_calls.length, m.tool_calls.foldl tallyToolCall acc.2)
        (by simp only [sumCounts_foldl_tally m.tool_calls acc.2]; omega)
    · rw [if_neg hm]
      exact ih acc hacc

/-- C10: in the metadata returned by `run_financial_agent`, the `tool_calls`
total always equals the sum of the per-tool counts in `tools_used`: both are
tallied from the same scan of the tool-invocation requests in the final
conversation state. -/
theorem run_metadata_tool_calls_consistent (final_messages : List Message)
    (cb : CallbackStats) (enable_logging : Bool) (sink : Except String Unit) :
    (run_financial_agent final_messages cb enable_logging sink).2.tool_calls =
      sumCounts (run_financial_agent final_messages cb enable_logging sink).2.tools_used :=
  scanToolCalls_consistent final_messages
